import Mathlib

/-!
Shallow embedding of the registration-and-draw core of `src/tg_kngfn_bot.py`.

The participant store is the single PostgreSQL table
`participants (id SERIAL PRIMARY KEY, email TEXT UNIQUE NOT NULL)` created by
`init_db`.  It is modelled as a list of `(id, email)` rows in insertion order
together with the SERIAL sequence's next value.  The SERIAL sequence starts
at 1.  Note that PostgreSQL evaluates the `id` default (`nextval`) while
forming the candidate tuple, before `ON CONFLICT (email) DO NOTHING`
suppresses the insert, so a conflicting insert still consumes a sequence
value; the model advances `nextId` on every executed INSERT, successful or
conflicting.

`random.choice(rows)` in `pick_random_winner` is modelled by an external
choice index `k`: the drawn row is `rows[k % rows.length]`, so the uniform
distribution on indices below `rows.length` induces the distribution of
`random.choice`.

The Telegram reply texts are abstracted into result constructors
(`Registered`/`AlreadyRegistered`/`Invalid`, `Winner`/`NoParticipants`/
`Unauthorized`, CSV file/`Empty`/`Unauthorized`); the admin test
`user_id != ADMIN_ID` in `raffle` and `export_participants` is abstracted
into the boolean `callerIsAdmin`.
-/

namespace TgKngfnBot

/-- Python `str.isspace` on the ASCII whitespace characters stripped by
`str.strip()` (space, tab, newline, carriage return, vertical tab, form
feed). -/
def pyIsSpace (c : Char) : Bool :=
  c = ' ' || c = '\t' || c = '\n' || c = '\r' || c = '\x0b' || c = '\x0c'

/-- Python `str.strip()`: drop leading and trailing whitespace
(`text = update.message.text.strip()`, line 131). -/
def pyStrip (s : String) : String :=
  String.mk (((s.data.dropWhile pyIsSpace).reverse.dropWhile pyIsSpace).reverse)

/-- Zero-pad a string on the left to a minimum width of 3 characters, as the
Python format spec `:03` does for the decimal rendering of an id. -/
def zeroPad3 (s : String) : String :=
  String.mk (List.replicate (3 - s.length) '0') ++ s

/-- Display code of id `n`: the Python format `f"USER{new_id:03}"` used at
lines 87 and 105. -/
def displayCode (n : Nat) : String :=
  "USER" ++ zeroPad3 (toString n)

/-- The participant store: the `participants` table rows in insertion order
plus the next value of the `id` SERIAL sequence. -/
structure Store where
  nextId : Nat
  rows : List (Nat × String)
deriving DecidableEq, Repr

/-- Result of `init_db` on a fresh database: empty table, SERIAL sequence
at 1. -/
def initStore : Store := ⟨1, []⟩

/-- Model of `add_participant(email)` (lines 62-87): execute
`INSERT INTO participants (email) VALUES (%s) ON CONFLICT (email) DO NOTHING
RETURNING id`, returning `USER{id:03}` for a fresh insert and `None` on
conflict.  The SERIAL sequence advances in both cases (see the header
comment). -/
def add_participant (email : String) (st : Store) : Option String × Store :=
  if st.rows.any (fun r => r.2 == email) then
    (none, { st with nextId := st.nextId + 1 })
  else
    (some (displayCode st.nextId),
     { nextId := st.nextId + 1, rows := st.rows ++ [(st.nextId, email)] })

/-- Outcome of `handle_email` as seen by the user (lines 128-147). -/
inductive RegistrationResult where
  | Registered (code : String)
  | AlreadyRegistered
  | Invalid
deriving DecidableEq, Repr

/-- The body of `handle_email` after stripping: the `"@"`/`"."` syntactic
check (line 133) followed by `add_participant` under the lock. -/
def validateAndAdd (text : String) (st : Store) : RegistrationResult × Store :=
  if '@' ∉ text.data ∨ '.' ∉ text.data then
    (.Invalid, st)
  else
    match add_participant text st with
    | (none, st1) => (.AlreadyRegistered, st1)
    | (some c, st1) => (.Registered c, st1)

/-- Model of `handle_email` (lines 128-147): strip the inbound text, then
validate and
insert.  This is the spec's `register`. -/
def register (rawText : String) (st : Store) : RegistrationResult × Store :=
  validateAndAdd (pyStrip rawText) st

/-- Model of `pick_random_winner` (lines 90-105): run
`SELECT id FROM participants`, then
`random.choice(rows)` (modelled by the choice index `k`), rendered as
`USER{id:03}`.  Read-only: the store is returned unchanged. -/
def pick_random_winner (k : Nat) (st : Store) : Option String × Store :=
  if h : st.rows.length = 0 then
    (none, st)
  else
    (some (displayCode (st.rows.get
        ⟨k % st.rows.length, Nat.mod_lt _ (Nat.pos_of_ne_zero h)⟩).1), st)

/-- Outcome of `raffle` as seen by the user (lines 150-164). -/
inductive DrawResult where
  | Winner (code : String)
  | NoParticipants
  | Unauthorized
deriving DecidableEq, Repr

/-- Model of `raffle` (lines 150-164): non-admin callers get a denial reply
before any store access; otherwise draw via `pick_random_winner`. -/
def raffle (callerIsAdmin : Bool) (st : Store) (k : Nat) : DrawResult × Store :=
  if !callerIsAdmin then
    (.Unauthorized, st)
  else
    match pick_random_winner k st with
    | (none, st1) => (.NoParticipants, st1)
    | (some c, st1) => (.Winner c, st1)

/-- Insert a row into a list sorted by ascending id (helper for `ORDER BY id`). -/
def insertById (p : Nat × String) : List (Nat × String) → List (Nat × String)
  | [] => [p]
  | q :: qs => if p.1 ≤ q.1 then p :: q :: qs else q :: insertById p qs

/-- Sort rows by ascending id: the semantics of `ORDER BY id` in
`fetch_all_participants`. -/
def sortById (l : List (Nat × String)) : List (Nat × String) :=
  l.foldr insertById []

/-- Model of `fetch_all_participants` (lines 108-119):
`SELECT id, email FROM participants ORDER BY id`.  Read-only. -/
def fetch_all_participants (st : Store) : List (Nat × String) × Store :=
  (sortById st.rows, st)

/-- One field as written by Python's `csv.writer`: quoted (with doubled
inner quotes) exactly when it contains the delimiter, the quote character or
a line break. -/
def csvField (s : String) : String :=
  if ',' ∈ s.data ∨ '"' ∈ s.data ∨ '\n' ∈ s.data ∨ '\r' ∈ s.data then
    "\"" ++ s.replace "\"" "\"\"" ++ "\""
  else s

/-- One record as written by `writer.writerow`: fields joined by commas. -/
def csvLine (fields : List String) : String :=
  String.intercalate "," (fields.map csvField)

/-- Outcome of `export_participants` as seen by the user (lines 167-189). -/
inductive ExportResult where
  | File (lines : List String)
  | Empty
  | Unauthorized
deriving DecidableEq, Repr

/-- Model of `export_participants` (lines 167-189): non-admin callers get
"Команда недоступна" before any store access; with no rows the reply is
"В базе пока нет участников"; otherwise a CSV file with header row
`id,email` followed by one `id,email` record per participant. -/
def export_participants (callerIsAdmin : Bool) (st : Store) : ExportResult × Store :=
  if !callerIsAdmin then
    (.Unauthorized, st)
  else
    match fetch_all_participants st with
    | (rows, st1) =>
      if rows.isEmpty then
        (.Empty, st1)
      else
        (.File (csvLine ["id", "email"] ::
                rows.map (fun r => csvLine [toString r.1, r.2])), st1)

/-- Store well-formedness: the invariants `init_db` establishes and every
operation preserves — the next SERIAL value is positive, every stored id is
positive and below it, ids strictly increase in insertion order, and emails
are unique. -/
def wf (st : Store) : Prop :=
  1 ≤ st.nextId ∧
  (∀ r ∈ st.rows, 1 ≤ r.1 ∧ r.1 < st.nextId) ∧
  st.rows.Pairwise (fun a b => a.1 < b.1) ∧
  (st.rows.map Prod.snd).Nodup

/-! ### Helper lemmas -/

theorem mem_dropWhile_of_mem {α : Type} {p : α → Bool} {a : α} :
    ∀ {l : List α}, a ∈ l → p a = false → a ∈ l.dropWhile p := by
  intro l
  induction l with
  | nil => intro h; cases h
  | cons b bs ih =>
    intro hmem hpa
    rw [List.dropWhile_cons]
    by_cases hb : p b = true
    · simp only [hb, if_true]
      rcases List.mem_cons.mp hmem with rfl | h
      · rw [hpa] at hb; cases hb
      · exact ih h hpa
    · simp only [hb, if_false]
      exact hmem

theorem mem_of_mem_dropWhile {α : Type} {p : α → Bool} {a : α} :
    ∀ {l : List α}, a ∈ l.dropWhile p → a ∈ l := by
  intro l
  induction l with
  | nil => intro h; cases h
  | cons b bs ih =>
    intro hmem
    rw [List.dropWhile_cons] at hmem
    by_cases hb : p b = true
    · simp only [hb, if_true] at hmem
      exact List.mem_cons_of_mem _ (ih hmem)
    · simp only [hb, if_false] at hmem
      exact hmem

/-- A non-whitespace character of `s` survives `pyStrip`. -/
theorem mem_pyStrip_of_mem {c : Char} {s : String}
    (hmem : c ∈ s.data) (hc : pyIsSpace c = false) : c ∈ (pyStrip s).data := by
  unfold pyStrip
  simp only [List.mem_reverse]
  refine mem_dropWhile_of_mem ?_ hc
  simp only [List.mem_reverse]
  exact mem_dropWhile_of_mem hmem hc

/-- Every character of `pyStrip s` is a character of `s`. -/
theorem mem_of_mem_pyStrip {c : Char} {s : String}
    (hmem : c ∈ (pyStrip s).data) : c ∈ s.data := by
  unfold pyStrip at hmem
  simp only [List.mem_reverse] at hmem
  have h1 := mem_of_mem_dropWhile hmem
  simp only [List.mem_reverse] at h1
  exact mem_of_mem_dropWhile h1

theorem insertById_of_head_gt (p : Nat × String) :
    ∀ l : List (Nat × String), (∀ q ∈ l, p.1 < q.1) → insertById p l = p :: l := by
  intro l hlt
  cases l with
  | nil => rfl
  | cons q qs =>
    unfold insertById
    rw [if_pos (Nat.le_of_lt (hlt q (List.mem_cons_self q qs)))]

/-- A list whose ids strictly increase is a fixed point of `sortById`:
`ORDER BY id` returns well-formed rows in insertion order. -/
theorem sortById_eq_self :
    ∀ {l : List (Nat × String)}, l.Pairwise (fun a b => a.1 < b.1) →
      sortById l = l := by
  intro l
  induction l with
  | nil => intro _; rfl
  | cons a as ih =>
    intro hpw
    rcases List.pairwise_cons.mp hpw with ⟨hlt, htail⟩
    show insertById a (sortById as) = a :: as
    rw [ih htail, insertById_of_head_gt a as hlt]

/-- The function `add_participant` either leaves the rows unchanged
(conflict) or appends
a single fresh row carrying the old `nextId`; the sequence advances either
way. -/
theorem add_participant_cases (email : String) (st : Store) :
    (st.rows.any (fun r => r.2 == email) = true ∧
      add_participant email st = (none, ⟨st.nextId + 1, st.rows⟩)) ∨
    (st.rows.any (fun r => r.2 == email) = false ∧
      add_participant email st =
        (some (displayCode st.nextId),
         ⟨st.nextId + 1, st.rows ++ [(st.nextId, email)]⟩)) := by
  by_cases h : st.rows.any (fun r => r.2 == email) = true
  · left
    exact ⟨h, by simp [add_participant, h]⟩
  · right
    refine ⟨Bool.eq_false_iff.mpr h, ?_⟩
    simp [add_participant, h]

/-- Evaluation of `pick_random_winner` on a non-empty store, with the drawn
row expressed
through `List.getD` (proof-free indexing). -/
theorem pick_eq_getD (k : Nat) (st : Store) (h : st.rows.length ≠ 0) :
    pick_random_winner k st =
      (some (displayCode ((st.rows.getD (k % st.rows.length) (0, "")).1)), st) := by
  unfold pick_random_winner
  rw [dif_neg h]
  rw [List.getD_eq_getElem st.rows (0, "") (Nat.mod_lt _ (Nat.pos_of_ne_zero h))]
  rfl

theorem pick_of_empty (k : Nat) {st : Store} (h : st.rows = []) :
    pick_random_winner k st = (none, st) := by
  unfold pick_random_winner
  rw [dif_pos (by rw [h]; rfl)]

theorem raffle_true_of_empty (k : Nat) {st : Store} (h : st.rows = []) :
    raffle true st k = (.NoParticipants, st) := by
  unfold raffle
  rw [pick_of_empty k h]
  rfl

theorem raffle_true_getD (k : Nat) (st : Store) (h : st.rows.length ≠ 0) :
    raffle true st k =
      (.Winner (displayCode ((st.rows.getD (k % st.rows.length) (0, "")).1)), st) := by
  unfold raffle
  rw [pick_eq_getD k st h]
  rfl

/-- Evaluation of `register` when the stripped text fails the
`"@"`/`"."` check. -/
theorem register_not_valid (t : String) (st : Store)
    (hv : '@' ∉ (pyStrip t).data ∨ '.' ∉ (pyStrip t).data) :
    register t st = (.Invalid, st) := by
  unfold register validateAndAdd
  rw [if_pos hv]

/-- Evaluation of `register` when the stripped text passes the check and
its email is not
yet stored: a fresh row is appended carrying the current `nextId`. -/
theorem register_fresh (t : String) (st : Store)
    (hv : ¬('@' ∉ (pyStrip t).data ∨ '.' ∉ (pyStrip t).data))
    (habs : ∀ r ∈ st.rows, r.2 ≠ pyStrip t) :
    register t st =
      (.Registered (displayCode st.nextId),
       ⟨st.nextId + 1, st.rows ++ [(st.nextId, pyStrip t)]⟩) := by
  unfold register validateAndAdd
  rw [if_neg hv]
  rcases add_participant_cases (pyStrip t) st with ⟨ha, _⟩ | ⟨_, he⟩
  · rcases List.any_eq_true.mp ha with ⟨r, hr, hbeq⟩
    exact absurd (by simpa using hbeq) (habs r hr)
  · rw [he]

/-- Evaluation of `register` when the stripped text passes the check but
its email is
already stored: no row is added, yet the SERIAL sequence still advances
(PostgreSQL consumes `nextval` before `ON CONFLICT DO NOTHING` suppresses
the insert). -/
theorem register_conflict (t : String) (st : Store)
    (hv : ¬('@' ∉ (pyStrip t).data ∨ '.' ∉ (pyStrip t).data))
    (hmem : ∃ r ∈ st.rows, r.2 = pyStrip t) :
    register t st = (.AlreadyRegistered, ⟨st.nextId + 1, st.rows⟩) := by
  unfold register validateAndAdd
  rw [if_neg hv]
  have ha : st.rows.any (fun r => r.2 == pyStrip t) = true := by
    rcases hmem with ⟨r, hr, he⟩
    exact List.any_eq_true.mpr ⟨r, hr, by simp [he]⟩
  rcases add_participant_cases (pyStrip t) st with ⟨_, he⟩ | ⟨ha2, _⟩
  · rw [he]
  · exact absurd (ha.symm.trans ha2) (by decide)

/-- The draw helper `pick_random_winner` returns the store unchanged (it
only SELECTs). -/
theorem pick_snd (k : Nat) (st : Store) : (pick_random_winner k st).2 = st := by
  unfold pick_random_winner
  split <;> rfl

/-- The draw handler `raffle` returns the store unchanged. -/
theorem raffle_snd (b : Bool) (st : Store) (k : Nat) : (raffle b st k).2 = st := by
  cases b with
  | false => rfl
  | true =>
    rcases List.eq_nil_or_concat st.rows with h | ⟨l, r, h⟩
    · rw [raffle_true_of_empty k h]
    · have hne : st.rows.length ≠ 0 := by
        rw [h, List.length_concat]
        exact Nat.succ_ne_zero _
      rw [raffle_true_getD k st hne]

/-- The export handler `export_participants` returns the store unchanged. -/
theorem export_snd (b : Bool) (st : Store) : (export_participants b st).2 = st := by
  cases b with
  | false => rfl
  | true =>
    show (if (sortById st.rows).isEmpty = true then
        ((ExportResult.Empty, st) : ExportResult × Store)
      else
        (ExportResult.File (csvLine ["id", "email"] ::
          (sortById st.rows).map (fun r => csvLine [toString r.1, r.2])), st)).2 = st
    split <;> rfl

/-- C3: with `callerIsAdmin = false`, `raffle` returns `Unauthorized` and
never a winner, and `export_participants` returns `Unauthorized`, for every
store state and choice index; neither call changes the store, and the result
does not depend on the store at all (the admin check precedes any store
access in the code). -/
theorem non_admin_unauthorized (st : Store) (k : Nat) :
    raffle false st k = (.Unauthorized, st) ∧
    export_participants false st = (.Unauthorized, st) ∧
    (∀ c st1, raffle false st k ≠ (DrawResult.Winner c, st1)) := by
  refine ⟨rfl, rfl, fun c st1 h => ?_⟩
  simp [raffle] at h

/-- C9: a draw never modifies the store — `pick_random_winner` and `raffle`
return the store unchanged for every store, caller and choice index — so a
second draw behaves exactly as if the first had not happened, and a draw
with the same choice index repeats the same winner. -/
theorem draw_never_modifies_store (b : Bool) (st : Store) (k k1 : Nat) :
    (pick_random_winner k st).2 = st ∧
    (raffle b st k).2 = st ∧
    raffle b ((raffle b st k1).2) k = raffle b st k :=
  ⟨pick_snd k st, raffle_snd b st k, by rw [raffle_snd b st k1]⟩

/-- C6: a string lacking `@` or lacking `.` (stripping removes only
whitespace, so the stripped text lacks it too) is rejected by the syntactic
check in `handle_email`: the result is `Invalid` and the store is returned
exactly as it was, so the row count is unchanged. -/
theorem invalid_input_untouched_store (s : String) (st : Store)
    (h : '@' ∉ s.data ∨ '.' ∉ s.data) :
    register s st = (.Invalid, st) := by
  have h1 : '@' ∉ (pyStrip s).data ∨ '.' ∉ (pyStrip s).data := by
    rcases h with h | h
    · exact Or.inl (fun hc => h (mem_of_mem_pyStrip hc))
    · exact Or.inr (fun hc => h (mem_of_mem_pyStrip hc))
  unfold register validateAndAdd
  rw [if_pos h1]

/-- Witness for C6 at the concrete non-email `"hello"` and the initial
store. -/
theorem invalid_input_untouched_store_witness :
    register "hello" initStore = (.Invalid, initStore) :=
  invalid_input_untouched_store "hello" initStore (Or.inl (by decide))

/-- C10: `handle_email` strips leading and trailing whitespace before the
`"@"`/`"."` check and the insert: `register` factors through
`validateAndAdd ∘ pyStrip`, two raw texts with the same stripped form
behave identically, a successful registration stores exactly the stripped
text, and after one of two whitespace-variants registers, the other yields
`AlreadyRegistered`. -/
theorem registration_strips_whitespace :
    (∀ t st, register t st = validateAndAdd (pyStrip t) st) ∧
    (∀ t1 t2 st, pyStrip t1 = pyStrip t2 → register t1 st = register t2 st) ∧
    (∀ t st c, (register t st).1 = RegistrationResult.Registered c →
      ((register t st).2).rows = st.rows ++ [(st.nextId, pyStrip t)]) ∧
    (∀ t1 t2 st, pyStrip t1 = pyStrip t2 →
      (register t1 st).1 ≠ RegistrationResult.Invalid →
      (register t2 ((register t1 st).2)).1 = RegistrationResult.AlreadyRegistered) := by
  have hdef : ∀ t st, register t st = validateAndAdd (pyStrip t) st := fun _ _ => rfl
  have heq : ∀ t1 t2 st, pyStrip t1 = pyStrip t2 → register t1 st = register t2 st := by
    intro t1 t2 st h
    rw [hdef, hdef, h]
  refine ⟨hdef, heq, ?_, ?_⟩
  · intro t st c hreg
    by_cases hv : '@' ∉ (pyStrip t).data ∨ '.' ∉ (pyStrip t).data
    · rw [register_not_valid t st hv] at hreg
      simp at hreg
    · by_cases hmem : ∃ r ∈ st.rows, r.2 = pyStrip t
      · rw [register_conflict t st hv hmem] at hreg
        simp at hreg
      · push_neg at hmem
        rw [register_fresh t st hv hmem]
  · intro t1 t2 st hs hninv
    rw [heq t2 t1 _ hs.symm]
    by_cases hv : '@' ∉ (pyStrip t1).data ∨ '.' ∉ (pyStrip t1).data
    · exact absurd (by rw [register_not_valid t1 st hv]) hninv
    · by_cases hmem : ∃ r ∈ st.rows, r.2 = pyStrip t1
      · rw [register_conflict t1 st hv hmem]
        show (register t1 (⟨st.nextId + 1, st.rows⟩ : Store)).1 =
          RegistrationResult.AlreadyRegistered
        rw [register_conflict t1 ⟨st.nextId + 1, st.rows⟩ hv hmem]
      · push_neg at hmem
        rw [register_fresh t1 st hv hmem]
        show (register t1
            (⟨st.nextId + 1, st.rows ++ [(st.nextId, pyStrip t1)]⟩ : Store)).1 =
          RegistrationResult.AlreadyRegistered
        rw [register_conflict t1 ⟨st.nextId + 1, st.rows ++ [(st.nextId, pyStrip t1)]⟩
            hv ⟨(st.nextId, pyStrip t1), by simp, rfl⟩]

/-- Witness for C10 at concrete inputs: `"  a@b.com "` and `"a@b.com"` strip
to the same email, so the first registers it and the second then reports
`AlreadyRegistered`. -/
theorem registration_strips_whitespace_witness :
    register "a@b.com" ((register "  a@b.com " initStore).2) =
      (RegistrationResult.AlreadyRegistered, ⟨3, [(1, "a@b.com")]⟩) := by
  have h := registration_strips_whitespace.2.2.2 "  a@b.com " "a@b.com" initStore
    (by decide) (by decide)
  have h2 : ((register "a@b.com" ((register "  a@b.com " initStore).2)).2 :
      Store) = ⟨3, [(1, "a@b.com")]⟩ := by decide
  rw [Prod.ext_iff]
  exact ⟨h, h2⟩

/-- C1 (amended): for `s` containing `@` and `.` whose stripped form is not
yet registered, `register s` then `register s` again yields `Registered`
then `AlreadyRegistered`, the second call adds no row, and afterwards
exactly one row carries the *stripped* email `pyStrip s` (the filter of the
rows on that email is exactly the one inserted row).  The claim's phrase
"email equals s" holds only up to stripping — see the counterexample. -/
theorem register_twice_one_row (s : String) (st : Store)
    (hat : '@' ∈ s.data) (hdot : '.' ∈ s.data)
    (habs : ∀ r ∈ st.rows, r.2 ≠ pyStrip s) :
    (register s st).1 = RegistrationResult.Registered (displayCode st.nextId) ∧
    (register s ((register s st).2)).1 = RegistrationResult.AlreadyRegistered ∧
    ((register s ((register s st).2)).2).rows.filter
        (fun r => r.2 == pyStrip s) = [(st.nextId, pyStrip s)] ∧
    ((register s ((register s st).2)).2).rows = ((register s st).2).rows := by
  have hv : ¬('@' ∉ (pyStrip s).data ∨ '.' ∉ (pyStrip s).data) := by
    push_neg
    exact ⟨mem_pyStrip_of_mem hat (by decide), mem_pyStrip_of_mem hdot (by decide)⟩
  have h1 := register_fresh s st hv habs
  have h2 := register_conflict s ⟨st.nextId + 1, st.rows ++ [(st.nextId, pyStrip s)]⟩
    hv ⟨(st.nextId, pyStrip s), by simp, rfl⟩
  refine ⟨by rw [h1], ?_, ?_, ?_⟩
  · rw [h1]
    show (register s (⟨st.nextId + 1, st.rows ++ [(st.nextId, pyStrip s)]⟩ : Store)).1 =
      RegistrationResult.AlreadyRegistered
    rw [h2]
  · rw [h1]
    show ((register s
        (⟨st.nextId + 1, st.rows ++ [(st.nextId, pyStrip s)]⟩ : Store)).2).rows.filter
        (fun r => r.2 == pyStrip s) = [(st.nextId, pyStrip s)]
    rw [h2]
    show (st.rows ++ [(st.nextId, pyStrip s)]).filter
        (fun r => r.2 == pyStrip s) = [(st.nextId, pyStrip s)]
    rw [List.filter_append]
    have hnil : st.rows.filter (fun r => r.2 == pyStrip s) = [] := by
      rw [List.filter_eq_nil_iff]
      intro r hr
      simpa using habs r hr
    rw [hnil]
    simp [List.filter]
  · rw [h1]
    show ((register s
        (⟨st.nextId + 1, st.rows ++ [(st.nextId, pyStrip s)]⟩ : Store)).2).rows =
      st.rows ++ [(st.nextId, pyStrip s)]
    rw [h2]

/-- Witness for C1's amended statement at `s = "a@b.com"` from the initial
store. -/
theorem register_twice_one_row_witness :
    ((register "a@b.com" ((register "a@b.com" initStore).2)).2).rows.filter
        (fun r => r.2 == pyStrip "a@b.com") = [(1, pyStrip "a@b.com")] :=
  (register_twice_one_row "a@b.com" initStore (by decide) (by decide)
    (by intro r hr; cases hr)).2.2.1

/-- Counterexample for C1 as stated: `s = " a@b.com"` contains `@` and `.`,
and registering it twice from the initial store yields `Registered` then
`AlreadyRegistered` as claimed, but the store afterwards has *zero* rows
whose email equals `s` itself — the stored email is the stripped text
`"a@b.com"`, not `" a@b.com"`. -/
theorem register_twice_raw_email_refuted :
    (register " a@b.com" initStore).1 = RegistrationResult.Registered "USER001" ∧
    (register " a@b.com" ((register " a@b.com" initStore).2)).1 =
      RegistrationResult.AlreadyRegistered ∧
    ¬((((register " a@b.com" ((register " a@b.com" initStore).2)).2).rows.filter
        (fun r => r.2 == " a@b.com")).length = 1) := by
  refine ⟨by decide, by decide, by decide⟩

/-- C2: an admin draw on an empty store yields `NoParticipants`; on a
non-empty store every choice index yields `Winner` of the display code of a
stored id; the selection is uniform over the stored rows — the choice index
`k` drawn uniformly below `rows.length` hits each row exactly once, as the
map over all indices returns exactly the rows' codes in order — and with a
single participant every choice index returns that participant's code. -/
theorem draw_uniform_over_store (st : Store) :
    (st.rows = [] → ∀ k, raffle true st k = (DrawResult.NoParticipants, st)) ∧
    ((List.range st.rows.length).map (fun k => (pick_random_winner k st).1) =
      st.rows.map (fun r => some (displayCode r.1))) ∧
    (st.rows ≠ [] → ∀ k, ∃ r ∈ st.rows,
      raffle true st k = (DrawResult.Winner (displayCode r.1), st)) ∧
    (∀ r, st.rows = [r] → ∀ k,
      raffle true st k = (DrawResult.Winner (displayCode r.1), st)) := by
  refine ⟨fun h k => raffle_true_of_empty k h, ?_, ?_, ?_⟩
  · apply List.ext_getElem
    · simp
    · intro i h1 h2
      have hi : i < st.rows.length := by simpa using h2
      have hne : st.rows.length ≠ 0 := by omega
      simp only [List.getElem_map, List.getElem_range]
      rw [pick_eq_getD i st hne]
      rw [Nat.mod_eq_of_lt hi, List.getD_eq_getElem _ _ hi]
  · intro hne k
    have hlen : st.rows.length ≠ 0 := fun h0 => hne (List.length_eq_zero.mp h0)
    have hlt : k % st.rows.length < st.rows.length :=
      Nat.mod_lt _ (Nat.pos_of_ne_zero hlen)
    refine ⟨st.rows.getD (k % st.rows.length) (0, ""), ?_, raffle_true_getD k st hlen⟩
    rw [List.getD_eq_getElem _ _ hlt]
    exact List.getElem_mem _
  · intro r hr k
    have hlen : st.rows.length ≠ 0 := by
      rw [hr]
      exact Nat.one_ne_zero
    rw [raffle_true_getD k st hlen]
    rw [show st.rows.getD (k % st.rows.length) (0, "") = r from by
      rw [hr]
      simp [Nat.mod_one]]

/-- Witness for C2 at a concrete one-participant store and choice index 5. -/
theorem draw_uniform_over_store_witness :
    raffle true ⟨2, [(1, "a@b.com")]⟩ 5 =
      (DrawResult.Winner "USER001", ⟨2, [(1, "a@b.com")]⟩) :=
  ((draw_uniform_over_store ⟨2, [(1, "a@b.com")]⟩).2.2.2 (1, "a@b.com") rfl 5).trans
    (by decide)

/-- C4: the display code of id `n` is a function of `n` alone: the fixed
prefix `"USER"` followed by the decimal rendering of `n` zero-padded on the
left to a minimum width of 3 digits; there is no upper bound — once the
decimal rendering has 3 or more digits no padding is applied and the code's
length simply grows with it — and both the registration path
(`add_participant`) and the draw path (`pick_random_winner`) produce their
codes through this one function. -/
theorem display_code_shape :
    (∀ n, displayCode n =
      ("USER" ++ String.mk (List.replicate (3 - (toString n).length) '0')) ++
        toString n) ∧
    (∀ n, (displayCode n).length = 4 + max 3 (toString n).length) ∧
    (∀ n, 3 ≤ (toString n).length → displayCode n = "USER" ++ toString n) ∧
    (∀ e st c st1, add_participant e st = (some c, st1) → c = displayCode st.nextId) ∧
    (∀ k st c st1, pick_random_winner k st = (some c, st1) →
      ∃ r ∈ st.rows, c = displayCode r.1) := by
  refine ⟨?_, ?_, ?_, ?_, ?_⟩
  · intro n
    unfold displayCode zeroPad3
    rw [String.append_assoc]
  · intro n
    unfold displayCode zeroPad3
    rw [String.length_append, String.length_append]
    have hmk : (String.mk (List.replicate (3 - (toString n).length) '0')).length =
        3 - (toString n).length := by
      show (List.replicate (3 - (toString n).length) '0').length = _
      rw [List.length_replicate]
    rw [hmk]
    have h4 : ("USER" : String).length = 4 := rfl
    rw [h4]
    omega
  · intro n h
    unfold displayCode zeroPad3
    rw [Nat.sub_eq_zero_of_le h]
    rfl
  · intro e st c st1 h
    rcases add_participant_cases e st with ⟨_, he⟩ | ⟨_, he⟩
    · rw [he] at h
      simp at h
    · rw [he] at h
      injection h with h1 _
      injection h1 with h1
      exact h1.symm
  · intro k st c st1 h
    by_cases h0 : st.rows.length = 0
    · rw [show pick_random_winner k st = (none, st) from by
        unfold pick_random_winner
        rw [dif_pos h0]] at h
      simp at h
    · rw [pick_eq_getD k st h0] at h
      injection h with h1 _
      injection h1 with h1
      have hlt : k % st.rows.length < st.rows.length :=
        Nat.mod_lt _ (Nat.pos_of_ne_zero h0)
      refine ⟨st.rows.getD (k % st.rows.length) (0, ""), ?_, h1.symm⟩
      rw [List.getD_eq_getElem _ _ hlt]
      exact List.getElem_mem _

/-- Witness for C4's conditional parts at concrete inputs: id 1000 widens
past 3 digits with no padding; a concrete insert and a concrete draw both
return codes produced by `displayCode`. -/
theorem display_code_shape_witness :
    displayCode 1000 = "USER" ++ toString 1000 ∧
    "USER001" = displayCode (initStore.nextId) ∧
    ∃ r ∈ (⟨2, [(1, "a@b.com")]⟩ : Store).rows, "USER001" = displayCode r.1 := by
  refine ⟨display_code_shape.2.2.1 1000 (by decide), ?_, ?_⟩
  · exact display_code_shape.2.2.2.1 "a@b.com" initStore "USER001"
      ⟨2, [(1, "a@b.com")]⟩ (by decide)
  · exact display_code_shape.2.2.2.2 0 ⟨2, [(1, "a@b.com")]⟩ "USER001"
      ⟨2, [(1, "a@b.com")]⟩ (by decide)

/-- C5: an admin export on an empty store returns `Empty`; on a non-empty
well-formed store it returns the CSV file whose header row is `id,email`
followed by every stored `(id, email)` pair in ascending-id order, which for
a well-formed store is exactly the insertion order (`sortById` fixes the
rows). -/
theorem export_admin_ordered (st : Store) (hwf : wf st) :
    (st.rows = [] → export_participants true st = (ExportResult.Empty, st)) ∧
    (st.rows ≠ [] → export_participants true st =
      (ExportResult.File (csvLine ["id", "email"] ::
        st.rows.map (fun r => csvLine [toString r.1, r.2])), st)) ∧
    csvLine ["id", "email"] = "id,email" ∧
    sortById st.rows = st.rows := by
  have hsort : sortById st.rows = st.rows := sortById_eq_self hwf.2.2.1
  have hshow : export_participants true st =
      (if (sortById st.rows).isEmpty = true then
        ((ExportResult.Empty, st) : ExportResult × Store)
      else
        (ExportResult.File (csvLine ["id", "email"] ::
          (sortById st.rows).map (fun r => csvLine [toString r.1, r.2])), st)) := rfl
  refine ⟨?_, ?_, by decide, hsort⟩
  · intro h
    rw [hshow, hsort, h]
    rfl
  · intro h
    rw [hshow, hsort]
    rw [if_neg (by simpa [List.isEmpty_iff] using h)]

/-- Witness for C5 at the concrete two-row store of the spec's export
example. -/
theorem export_admin_ordered_witness :
    export_participants true ⟨3, [(1, "a@x.com"), (2, "b@y.com")]⟩ =
      (ExportResult.File ["id,email", "1,a@x.com", "2,b@y.com"],
       ⟨3, [(1, "a@x.com"), (2, "b@y.com")]⟩) :=
  ((export_admin_ordered ⟨3, [(1, "a@x.com"), (2, "b@y.com")]⟩
      (by refine ⟨by decide, ?_, ?_, ?_⟩ <;> decide)).2.1
    (by decide)).trans (by decide)

/-- C7: the initial store is well-formed with base id 1, and every operation
keeps it well-formed (ids positive, strictly increasing in insertion order,
all below the next SERIAL value, emails unique): a registration either
leaves the rows exactly as they were or appends a single new row at the end
whose id is the current `nextId`, strictly larger than every existing id —
so the Nth successfully registered email gets a larger id than the
(N-1)th — and draws and exports never change the store, so no id is ever
mutated, reassigned or reclaimed. -/
theorem ids_strictly_increasing :
    wf initStore ∧
    (∀ s st, wf st → wf ((register s st).2)) ∧
    (∀ s st, wf st →
      ((register s st).2).rows = st.rows ∨
      (((register s st).2).rows = st.rows ++ [(st.nextId, pyStrip s)] ∧
        ∀ r ∈ st.rows, r.1 < st.nextId)) ∧
    (∀ b st k, (raffle b st k).2 = st) ∧
    (∀ b st, (export_participants b st).2 = st) := by
  refine ⟨?_, ?_, ?_, raffle_snd, export_snd⟩
  · exact ⟨Nat.le_refl 1, fun r hr => absurd hr (List.not_mem_nil r),
      List.Pairwise.nil, List.nodup_nil⟩
  · intro s st hwf
    obtain ⟨h1, h2, h3, h4⟩ := hwf
    by_cases hv : '@' ∉ (pyStrip s).data ∨ '.' ∉ (pyStrip s).data
    · rw [register_not_valid s st hv]
      exact ⟨h1, h2, h3, h4⟩
    · by_cases hmem : ∃ r ∈ st.rows, r.2 = pyStrip s
      · rw [register_conflict s st hv hmem]
        exact ⟨Nat.le_succ_of_le h1,
          fun r hr => ⟨(h2 r hr).1, Nat.lt_succ_of_lt (h2 r hr).2⟩, h3, h4⟩
      · push_neg at hmem
        rw [register_fresh s st hv hmem]
        refine ⟨Nat.le_succ_of_le h1, ?_, ?_, ?_⟩
        · intro r hr
          rcases List.mem_append.mp hr with hr | hr
          · exact ⟨(h2 r hr).1, Nat.lt_succ_of_lt (h2 r hr).2⟩
          · rw [List.mem_singleton] at hr
            subst hr
            exact ⟨h1, Nat.lt_succ_self _⟩
        · rw [List.pairwise_append]
          refine ⟨h3, List.pairwise_singleton _ _, ?_⟩
          intro a ha b hb
          rw [List.mem_singleton] at hb
          subst hb
          exact (h2 a ha).2
        · rw [List.map_append, List.nodup_append]
          refine ⟨h4, List.nodup_singleton _, ?_⟩
          intro a ha hb
          rw [show List.map Prod.snd [(st.nextId, pyStrip s)] = [pyStrip s] from rfl,
            List.mem_singleton] at hb
          subst hb
          rcases List.mem_map.mp ha with ⟨r, hr, hr2⟩
          exact hmem r hr hr2
  · intro s st hwf
    by_cases hv : '@' ∉ (pyStrip s).data ∨ '.' ∉ (pyStrip s).data
    · left
      rw [register_not_valid s st hv]
    · by_cases hmem : ∃ r ∈ st.rows, r.2 = pyStrip s
      · left
        rw [register_conflict s st hv hmem]
      · push_neg at hmem
        right
        exact ⟨by rw [register_fresh s st hv hmem], fun r hr => (hwf.2.1 r hr).2⟩

/-- Witness for C7 at concrete stores: one registration from the initial
store preserves well-formedness, and registering a fresh email into a
one-row store appends a row with the strictly larger id 2. -/
theorem ids_strictly_increasing_witness :
    wf ((register "a@b.com" initStore).2) ∧
    (((register "x@y.z" ⟨2, [(1, "a@b.com")]⟩).2).rows =
        (⟨2, [(1, "a@b.com")]⟩ : Store).rows ∨
      (((register "x@y.z" ⟨2, [(1, "a@b.com")]⟩).2).rows =
          (⟨2, [(1, "a@b.com")]⟩ : Store).rows ++
            [((⟨2, [(1, "a@b.com")]⟩ : Store).nextId, pyStrip "x@y.z")] ∧
        ∀ r ∈ (⟨2, [(1, "a@b.com")]⟩ : Store).rows,
          r.1 < (⟨2, [(1, "a@b.com")]⟩ : Store).nextId)) :=
  ⟨ids_strictly_increasing.2.1 "a@b.com" initStore
      (by refine ⟨by decide, ?_, ?_, ?_⟩ <;> decide),
   ids_strictly_increasing.2.2.1 "x@y.z" ⟨2, [(1, "a@b.com")]⟩
      (by refine ⟨by decide, ?_, ?_, ?_⟩ <;> decide)⟩

/-- Counterexample for C8 as stated: running the spec's scenario from the
empty store with base id 1, the third call `register("c@d.com")` does not
return `Registered("USER002")` — the duplicate second call consumed a value
of the id SERIAL sequence, so the third registration receives id 3. -/
theorem scenario_user002_refuted :
    (register "c@d.com"
        ((register "a@b.com" ((register "a@b.com" initStore).2)).2)).1 ≠
      RegistrationResult.Registered "USER002" := by decide

/-- C8 (amended): from the empty store with base id 1, the scenario yields
`Registered("USER001")`, then `AlreadyRegistered`, then
`Registered("USER003")` (the conflicting duplicate insert consumes an id of
the SERIAL sequence, so id 2 is skipped); a subsequent admin draw yields a
winner in {USER001, USER003} for every choice index, and an admin export
yields exactly the rows (1,"a@b.com") and (3,"c@d.com") in that order. -/
theorem scenario_sequence_user003 :
    (register "a@b.com" initStore).1 = RegistrationResult.Registered "USER001" ∧
    (register "a@b.com" ((register "a@b.com" initStore).2)).1 =
      RegistrationResult.AlreadyRegistered ∧
    (register "c@d.com" ((register "a@b.com" ((register "a@b.com" initStore).2)).2)) =
      (RegistrationResult.Registered "USER003",
       ⟨4, [(1, "a@b.com"), (3, "c@d.com")]⟩) ∧
    (∀ k, raffle true ⟨4, [(1, "a@b.com"), (3, "c@d.com")]⟩ k =
        (DrawResult.Winner "USER001", ⟨4, [(1, "a@b.com"), (3, "c@d.com")]⟩) ∨
      raffle true ⟨4, [(1, "a@b.com"), (3, "c@d.com")]⟩ k =
        (DrawResult.Winner "USER003", ⟨4, [(1, "a@b.com"), (3, "c@d.com")]⟩)) ∧
    export_participants true ⟨4, [(1, "a@b.com"), (3, "c@d.com")]⟩ =
      (ExportResult.File ["id,email", "1,a@b.com", "3,c@d.com"],
       ⟨4, [(1, "a@b.com"), (3, "c@d.com")]⟩) := by
  refine ⟨by decide, by decide, by decide, ?_, by decide⟩
  intro k
  rw [raffle_true_getD k _ (by decide)]
  rcases Nat.mod_two_eq_zero_or_one k with hk | hk
  · left
    rw [show k % (⟨4, [(1, "a@b.com"), (3, "c@d.com")]⟩ : Store).rows.length = 0
      from hk]
    decide
  · right
    rw [show k % (⟨4, [(1, "a@b.com"), (3, "c@d.com")]⟩ : Store).rows.length = 1
      from hk]
    decide

end TgKngfnBot
